import Mathlib

/-!
Verification of the Scuttlebutt control-plane API (src/scuttlebutt/src/main.rs):
identity, token and membership-graph core.  Pure shallow embedding:
the store (the `db` module, declared but absent from the sources) is modelled
from the specification as in-memory tables with set semantics; timestamps are
modelled as `Int` milliseconds; the HMAC-SHA256 primitive of the external
`hmac`/`jwt` crates is a parameter `mac`.
-/

/-! ## Token service: Claims, base64, UTF-8, JSON shape, JWT sign/verify -/

/-- Model of the `Claims` struct: principal id and expiry.
`exp : DateTime<Local>` is modelled as an `Int` timestamp (milliseconds). -/
structure Claims where
  id : Int
  exp : Int
  deriving DecidableEq, Repr

/-- URL-safe base64 alphabet (the `jwt` crate encodes segments with
base64url, no padding). -/
def urlAlphabet : List Char :=
  "ABCDEFGHIJKLMNOPQRSTUVWXYZabcdefghijklmnopqrstuvwxyz0123456789-_".data

/-- Standard base64 alphabet (the `base64` crate's `decode` used by
`api_checker`). -/
def stdAlphabet : List Char :=
  "ABCDEFGHIJKLMNOPQRSTUVWXYZabcdefghijklmnopqrstuvwxyz0123456789+/".data

/-- Character for a 6-bit group, URL-safe alphabet. -/
def b64UrlChar (n : Nat) : Char := (urlAlphabet.get? n).getD 'A'

/-- Index of a character in the URL-safe alphabet. -/
def b64UrlIndex (c : Char) : Option Nat := urlAlphabet.findIdx? (· = c)

/-- Index of a character in the standard alphabet. -/
def b64StdIndex (c : Char) : Option Nat := stdAlphabet.findIdx? (· = c)

/-- base64url (no padding) encoding of a byte list, as used by the `jwt`
crate for the three token segments. -/
def encodeB64Url : List Nat → List Char
  | [] => []
  | [b] => [b64UrlChar (b / 4), b64UrlChar (b % 4 * 16)]
  | [b, c] => [b64UrlChar (b / 4), b64UrlChar (b % 4 * 16 + c / 16), b64UrlChar (c % 16 * 4)]
  | b :: c :: d :: rest =>
    b64UrlChar (b / 4) :: b64UrlChar (b % 4 * 16 + c / 16) ::
    b64UrlChar (c % 16 * 4 + d / 64) :: b64UrlChar (d % 64) :: encodeB64Url rest

/-- Reassemble bytes from a list of 6-bit groups (shared decode core;
a trailing group list of length 1 is invalid). -/
def decodeB64Groups : List Nat → Option (List Nat)
  | [] => some []
  | [_] => none
  | [a, b] => some [a * 4 + b / 16]
  | [a, b, c] => some [a * 4 + b / 16, b % 16 * 16 + c / 4]
  | a :: b :: c :: d :: rest =>
    (decodeB64Groups rest).map
      (fun t => (a * 4 + b / 16) :: (b % 16 * 16 + c / 4) :: (c % 4 * 64 + d) :: t)

/-- Model of `base64::decode` (standard alphabet; trailing `=` padding
accepted, unpadded input of valid length accepted as well). -/
def decodeB64Std (cs : List Char) : Option (List Nat) :=
  let pad := (cs.reverse.takeWhile (· = '=')).length
  let body := cs.take (cs.length - pad)
  if pad > 2 then none
  else if pad > 0 && (body.length + pad) % 4 != 0 then none
  else match body.mapM b64StdIndex with
    | none => none
    | some groups => decodeB64Groups groups

/-- Model of base64url decoding with no padding allowed (the `jwt` crate's
segment decoding inside `verify_with_key`). -/
def decodeB64Url (cs : List Char) : Option (List Nat) :=
  match cs.mapM b64UrlIndex with
  | none => none
  | some groups => decodeB64Groups groups

/-- UTF-8 validation/decoding of a byte list: models
`String::from_utf8` (`none` = `Err`, on which `api_checker` unwraps). -/
def utf8Decode : List Nat → Option (List Char)
  | [] => some []
  | b :: rest =>
    if b < 0x80 then
      (utf8Decode rest).map (fun t => Char.ofNat b :: t)
    else if b < 0xC2 then none
    else if b < 0xE0 then
      match rest with
      | b1 :: rest1 =>
        if 0x80 ≤ b1 && b1 < 0xC0 then
          (utf8Decode rest1).map (fun t => Char.ofNat ((b - 0xC0) * 64 + (b1 - 0x80)) :: t)
        else none
      | [] => none
    else if b < 0xF0 then
      match rest with
      | b1 :: b2 :: rest2 =>
        let lo1 := if b = 0xE0 then 0xA0 else 0x80
        let hi1 := if b = 0xED then 0xA0 else 0xC0
        if lo1 ≤ b1 && b1 < hi1 && 0x80 ≤ b2 && b2 < 0xC0 then
          (utf8Decode rest2).map
            (fun t => Char.ofNat ((b - 0xE0) * 4096 + (b1 - 0x80) * 64 + (b2 - 0x80)) :: t)
        else none
      | _ => none
    else if b < 0xF5 then
      match rest with
      | b1 :: b2 :: b3 :: rest3 =>
        let lo1 := if b = 0xF0 then 0x90 else 0x80
        let hi1 := if b = 0xF4 then 0x90 else 0xC0
        if lo1 ≤ b1 && b1 < hi1 && 0x80 ≤ b2 && b2 < 0xC0 && 0x80 ≤ b3 && b3 < 0xC0 then
          (utf8Decode rest3).map
            (fun t => Char.ofNat ((b - 0xF0) * 262144 + (b1 - 0x80) * 4096 +
                                  (b2 - 0x80) * 64 + (b3 - 0x80)) :: t)
        else none
      | _ => none
    else none

/-- Bytes of an ASCII string (the claims JSON and JWT header are ASCII). -/
def strBytes (s : String) : List Nat := s.data.map Char.toNat

/-- Serialization of `Claims` as produced by `serde_json`:
field order `id` then `exp`; the `DateTime<Local>` expiry is modelled as its
integer timestamp rendered in quotes. -/
def serializeClaims (c : Claims) : String :=
  "\x7b\"id\":" ++ toString c.id ++ ",\"exp\":\"" ++ toString c.exp ++ "\"\x7d"

/-- Drop an expected literal prefix; `none` if the input does not start
with it. -/
def dropLit : List Char → List Char → Option (List Char)
  | [], cs => some cs
  | _ :: _, [] => none
  | l :: ls, c :: cs => if c = l then dropLit ls cs else none

/-- Parse a decimal integer (optional leading minus), returning the value
and the rest of the input. -/
def parseInt (cs : List Char) : Option (Int × List Char) :=
  let (neg, cs1) := match cs with
    | '-' :: rest => (true, rest)
    | _ => (false, cs)
  let digits := cs1.takeWhile (fun c => '0' ≤ c && c ≤ '9')
  if digits.isEmpty then none
  else
    let n : Nat := digits.foldl (fun acc c => acc * 10 + (c.toNat - 48)) 0
    some (if neg then -(n : Int) else (n : Int), cs1.drop digits.length)

/-- Model of `serde_json::from_str::<Claims>`: accepts exactly the shape
produced by `serializeClaims`, rejects anything else. -/
def parseClaims (cs : List Char) : Option Claims :=
  match dropLit "\x7b\"id\":".data cs with
  | none => none
  | some cs1 =>
    match parseInt cs1 with
    | none => none
    | some (id, cs2) =>
      match dropLit ",\"exp\":\"".data cs2 with
      | none => none
      | some cs3 =>
        match parseInt cs3 with
        | none => none
        | some (exp, cs4) =>
          match dropLit "\"\x7d".data cs4 with
          | some [] => some { id := id, exp := exp }
          | _ => none

/-- The serialized JWT header the `jwt` crate produces for an HMAC-SHA256
key: `\x7b"alg":"HS256"\x7d`. -/
def jwtHeader : String := "\x7b\"alg\":\"HS256\"\x7d"

/-- Model of `Claims::sign_with_key` (jwt crate, HMAC-SHA256 key):
`base64url(header) ++ "." ++ base64url(claims JSON) ++ "." ++ base64url(mac
of the signing input)`.  The keyed HMAC-SHA256 is the parameter `mac`. -/
def signToken (mac : List Char → List Nat) (c : Claims) : List Char :=
  let header := encodeB64Url (strBytes jwtHeader)
  let payload := encodeB64Url (strBytes (serializeClaims c))
  let signingInput := header ++ '.' :: payload
  signingInput ++ '.' :: encodeB64Url (mac signingInput)

/-- Split a character list on `'.'`, modelling Rust's `str::split('.')`. -/
def splitOnDot : List Char → List (List Char)
  | [] => [[]]
  | c :: rest =>
    match splitOnDot rest with
    | [] => [[]]
    | r :: rs => if c = '.' then [] :: r :: rs else (c :: r) :: rs

/-- Result of `api_checker`: the claims, `None`, or a panic of the handler
(`String::from_utf8(...).unwrap()` on invalid UTF-8). -/
inductive AuthResult where
  | ok (c : Claims)
  | noClaims
  | panicked
  deriving DecidableEq, Repr

/-- Model of `VerifyWithKey::<Claims>::verify_with_key`: split into exactly
three segments, check the recomputed mac over `header.claims` against the
signature segment, check the header, then deserialize the claims; any
failure is an `Err`, mapped by `.ok()` to no claims. -/
def verify_with_key (mac : List Char → List Nat) (token : List Char) : AuthResult :=
  match splitOnDot token with
  | [h, p, s] =>
    if decodeB64Url s = some (mac (h ++ '.' :: p)) then
      match decodeB64Url h with
      | none => .noClaims
      | some hbytes =>
        if hbytes ≠ strBytes jwtHeader then .noClaims
        else
          match decodeB64Url p with
          | none => .noClaims
          | some pbytes =>
            match utf8Decode pbytes with
            | none => .noClaims
            | some pstr =>
              match parseClaims pstr with
              | none => .noClaims
              | some c => .ok c
    else .noClaims
  | _ => .noClaims

/-- Model of `api_checker` (main.rs lines 51-69): take the second
dot-separated segment, `base64::decode` it (standard alphabet), unwrap
`String::from_utf8` (panics on invalid UTF-8), parse the claims, fast-fail
if the unverified expiry is in the past, then run full signature
verification. -/
def api_checker (mac : List Char → List Nat) (now : Int) (token : List Char) : AuthResult :=
  match (splitOnDot token).get? 1 with
  | none => .noClaims
  | some encodedClaims =>
    match decodeB64Std encodedClaims with
    | none => .noClaims
    | some bytes =>
      match utf8Decode bytes with
      | none => .panicked
      | some claimsStr =>
        match parseClaims claimsStr with
        | none => .noClaims
        | some claims =>
          if claims.exp < now then .noClaims
          else verify_with_key mac token

/-- Stand-in for the keyed HMAC-SHA256 of the process secret (the mac value
itself is irrelevant to the claims settled here: verification recomputes
the same function). -/
def macStub : List Char → List Nat := fun cs => [cs.length % 251, 7, 42]

/-- The demonstration token: issued for principal 1 with expiry 1000. -/
def demoToken : List Char := signToken macStub { id := 1, exp := 1000 }

/-- Flip bit 4 (value 16) of the character at position `n`: a single-bit
corruption of a token. -/
def flipBit16At (n : Nat) (cs : List Char) : List Char :=
  cs.set n (Char.ofNat (((cs.get? n).map Char.toNat).getD 0 ^^^ 16))

/-- `demoToken` with one bit of the first payload-segment character flipped
(`e`, 0x65, becomes `u`, 0x75). -/
def demoFlipped : List Char := flipBit16At 21 demoToken

/-! ## Membership graph: store model and endpoint handlers

The `db` module (`pub mod db`) is not present in the sources; every `Db`
operation below is modelled from the spec: the store is a set of in-memory
tables keyed by 64-bit ids, membership lists have set semantics (adding a
present element and removing an absent element are no-ops, not errors),
and store calls do not fail. -/

/-- Modelled from the spec: a stored `User` row (id, username, email,
hex-encoded password hash). -/
structure UserRec where
  username : String
  email : String
  hash : String
  deriving DecidableEq, Repr

/-- Modelled from the spec: a stored `Group` row — name, owner, admins,
members, ordered channel list, `is_dm` flag. -/
structure GroupRec where
  name : String
  owner : Int
  admin : List Int
  members : List Int
  channels : List Int
  is_dm : Bool
  deriving DecidableEq, Repr

/-- Modelled from the spec: a stored `Channel` row — parent group, name,
members, private flag. -/
structure ChannelRec where
  group : Int
  name : String
  members : List Int
  isPrivate : Bool
  deriving DecidableEq, Repr

/-- Modelled from the spec: the abstract store — entity tables plus the
denormalized per-user group-index and DM-index. -/
structure Db where
  users : Int → Option UserRec
  groups : Int → Option GroupRec
  channels : Int → Option ChannelRec
  user_groups : Int → Option (List Int)
  user_dms : Int → Option (List Int)

/-- Point update of a table. -/
def tset {α : Type} (m : Int → Option α) (k : Int) (v : Option α) : Int → Option α :=
  fun i => if i = k then v else m i

/-- Update the row at `k` when present (absent rows are untouched: set
semantics, removal/updating of absent entities is a no-op). -/
def tadjust {α : Type} (m : Int → Option α) (k : Int) (f : α → α) : Int → Option α :=
  fun i => if i = k then (m i).map f else m i

/-- Insert into a membership list with set semantics. -/
def insertId (l : List Int) (x : Int) : List Int :=
  if x ∈ l then l else l ++ [x]

/-- The `IdType` enum used by `valid_id`. -/
inductive IdType where
  | User
  | Group
  | Channel
  deriving DecidableEq, Repr

/-- Modelled from the spec: `valid_id` — does the id reference an existing
entity of the given kind. -/
def Db.valid_id (db : Db) (t : IdType) (id : Int) : Bool :=
  match t with
  | .User => (db.users id).isSome
  | .Group => (db.groups id).isSome
  | .Channel => (db.channels id).isSome

/-- Modelled from the spec: `get_user_hash` (only invoked under a
`valid_id` guard; absent rows yield a default). -/
def Db.get_user_hash (db : Db) (id : Int) : String :=
  ((db.users id).map UserRec.hash).getD ""

/-- Modelled from the spec: `create_user`. -/
def Db.create_user (db : Db) (id : Int) (name email hash : String) : Db :=
  { db with users := tset db.users id (some { username := name, email := email, hash := hash }) }

/-- Modelled from the spec: `create_user_groups` — initialize the empty
group-index. -/
def Db.create_user_groups (db : Db) (id : Int) : Db :=
  { db with user_groups := tset db.user_groups id (some []) }

/-- Modelled from the spec: `create_user_dms` — initialize the empty
DM-index. -/
def Db.create_user_dms (db : Db) (id : Int) : Db :=
  { db with user_dms := tset db.user_dms id (some []) }

/-- Modelled from the spec: `delete_user` — persist-delete the User row. -/
def Db.delete_user (db : Db) (id : Int) : Db :=
  { db with users := tset db.users id none }

/-- Modelled from the spec: `delete_user_groups` — delete the per-user
group-index record (the dual of `create_user_groups`). -/
def Db.delete_user_groups (db : Db) (id : Int) : Db :=
  { db with user_groups := tset db.user_groups id none }

/-- Modelled from the spec: `get_user_groups` — the user's group-index. -/
def Db.get_user_groups (db : Db) (id : Int) : List Int :=
  (db.user_groups id).getD []

/-- Modelled from the spec: `get_user_dms` — the user's DM-index. -/
def Db.get_user_dms (db : Db) (id : Int) : List Int :=
  (db.user_dms id).getD []

/-- Modelled from the spec: `add_user_group` — add `gid` to the user's
group-index. -/
def Db.add_user_group (db : Db) (uid gid : Int) : Db :=
  { db with user_groups := tadjust db.user_groups uid (fun l => insertId l gid) }

/-- Modelled from the spec: `add_user_dm` — add `gid` to the user's
DM-index. -/
def Db.add_user_dm (db : Db) (uid gid : Int) : Db :=
  { db with user_dms := tadjust db.user_dms uid (fun l => insertId l gid) }

/-- Modelled from the spec: `remove_user_group` — remove `gid` from the
user's group-index (no-op when absent). -/
def Db.remove_user_group (db : Db) (uid gid : Int) : Db :=
  { db with user_groups := tadjust db.user_groups uid (fun l => l.filter (· != gid)) }

/-- Modelled from the spec: `create_group` — owner = creator, members =
\x7bcreator\x7d, no admins, no channels yet (`make_group` adds the admin
entry and the "main" channel itself). -/
def Db.create_group (db : Db) (gid owner : Int) (name : String) (is_dm : Bool) : Db :=
  let g : GroupRec :=
    { name := name, owner := owner, admin := [], members := [owner],
      channels := [], is_dm := is_dm }
  { db with groups := tset db.groups gid (some g) }

/-- Modelled from the spec: `get_group_members`. -/
def Db.get_group_members (db : Db) (gid : Int) : List Int :=
  ((db.groups gid).map GroupRec.members).getD []

/-- Modelled from the spec: `get_group_admin`. -/
def Db.get_group_admin (db : Db) (gid : Int) : List Int :=
  ((db.groups gid).map GroupRec.admin).getD []

/-- Modelled from the spec: `get_group_owner` (only invoked under a
`valid_id` guard). -/
def Db.get_group_owner (db : Db) (gid : Int) : Int :=
  ((db.groups gid).map GroupRec.owner).getD 0

/-- Modelled from the spec: `is_group_dm`. -/
def Db.is_group_dm (db : Db) (gid : Int) : Bool :=
  ((db.groups gid).map GroupRec.is_dm).getD false

/-- Modelled from the spec: `add_group_member` (set semantics). -/
def Db.add_group_member (db : Db) (gid uid : Int) : Db :=
  { db with groups :=
      tadjust db.groups gid (fun g => { g with members := insertId g.members uid }) }

/-- Modelled from the spec: `remove_group_member` — remove `uid` from the
group's member set (no-op when absent). -/
def Db.remove_group_member (db : Db) (gid uid : Int) : Db :=
  { db with groups :=
      tadjust db.groups gid (fun g => { g with members := g.members.filter (· != uid) }) }

/-- Modelled from the spec: `add_group_admin` (set semantics). -/
def Db.add_group_admin (db : Db) (gid uid : Int) : Db :=
  { db with groups :=
      tadjust db.groups gid (fun g => { g with admin := insertId g.admin uid }) }

/-- Modelled from the spec: `get_group_channels` — the group's ordered
channel list. -/
def Db.get_group_channels (db : Db) (gid : Int) : List Int :=
  ((db.groups gid).map GroupRec.channels).getD []

/-- Modelled from the spec: `add_group_channel` — append the channel id to
the group's channel list (set semantics). -/
def Db.add_group_channel (db : Db) (gid cid : Int) : Db :=
  { db with groups :=
      tadjust db.groups gid (fun g => { g with channels := insertId g.channels cid }) }

/-- Modelled from the spec: `create_channel` — public channel whose sole
member is its creator. -/
def Db.create_channel (db : Db) (cid gid creator : Int) (name : String) : Db :=
  let c : ChannelRec :=
    { group := gid, name := name, members := [creator], isPrivate := false }
  { db with channels := tset db.channels cid (some c) }

/-- Modelled from the spec: `get_channel` (only invoked under a `valid_id`
guard). -/
def Db.get_channel (db : Db) (cid : Int) : ChannelRec :=
  (db.channels cid).getD { group := 0, name := "", members := [], isPrivate := false }

/-- Modelled from the spec: `is_channel_private`. -/
def Db.is_channel_private (db : Db) (cid : Int) : Bool :=
  ((db.channels cid).map ChannelRec.isPrivate).getD false

/-- Modelled from the spec: `add_channel_member` (set semantics). -/
def Db.add_channel_member (db : Db) (cid uid : Int) : Db :=
  { db with channels :=
      tadjust db.channels cid (fun c => { c with members := insertId c.members uid }) }

/-- Modelled from the spec: `remove_channel_member` — remove `uid` from the
channel's member set (no-op when absent). -/
def Db.remove_channel_member (db : Db) (cid uid : Int) : Db :=
  { db with channels :=
      tadjust db.channels cid (fun c => { c with members := c.members.filter (· != uid) }) }

/-- Modelled from the spec: `update_channel` — rename a channel. -/
def Db.update_channel (db : Db) (cid : Int) (name : String) : Db :=
  { db with channels := tadjust db.channels cid (fun c => { c with name := name }) }

/-! ### Response kinds (the `responses` module is not in the sources;
modelled from the spec's error taxonomy, payload messages omitted). -/

/-- Modelled from the spec: generic success / BadRequest / NotFound /
Unauthorized response kind shared by the mutating endpoints. -/
inductive ApiResp where
  | Success
  | BadRequest
  | NotFound
  | Unauthorized
  deriving DecidableEq, Repr

/-- The `User` payload returned by `make_user`. -/
structure UserOut where
  id : Int
  username : String
  email : String
  deriving DecidableEq, Repr

/-- Modelled from the spec: `CreateUserResponse`; `Panicked` marks the
handler panicking (array index out of bounds) rather than responding. -/
inductive CreateUserResponse where
  | BadRequest
  | Panicked
  | Success (u : UserOut)
  deriving DecidableEq, Repr

/-- The `Group` payload returned by `make_dm`. -/
structure GroupOut where
  id : Int
  name : String
  members : List Int
  channels : List Int
  admin : List Int
  owner : Int
  is_dm : Bool
  deriving DecidableEq, Repr

/-- Modelled from the spec: `CreateGroupResponse`. -/
inductive CreateGroupResponse where
  | BadRequest
  | NotFound
  | Success (g : GroupOut)
  deriving DecidableEq, Repr

/-- The `Channel` payload returned by `make_channel`. -/
structure ChannelOut where
  id : Int
  group : Int
  name : String
  members : List Int
  isPrivate : Bool
  deriving DecidableEq, Repr

/-- Modelled from the spec: `CreateChannelResponse`. -/
inductive CreateChannelResponse where
  | BadRequest
  | NotFound
  | Unauthorized
  | Success (c : ChannelOut)
  deriving DecidableEq, Repr

/-- Is a `CreateChannelResponse` the success case. -/
def CreateChannelResponse.isSuccess : CreateChannelResponse → Bool
  | .Success _ => true
  | _ => false

/-- Modelled from the spec: `LoginResponse`; `Panicked` marks the handler
panicking (`hex::decode(...).unwrap()` on a non-hex hash). -/
inductive LoginResponse where
  | BadRequest
  | NotFound
  | Unauthorized
  | Panicked
  | Success (token : List Char)
  deriving DecidableEq, Repr

/-! ### Endpoint handlers (main.rs). `gen_id` results are passed in as
explicit fresh-id parameters; the current time is an `Int` parameter. -/

/-- `Api::__remove_group_member` (main.rs lines 98-105): the three-part
removal cascade — group member set, every channel of the group, the user's
group-index. -/
def Api.__remove_group_member (db : Db) (gid uid : Int) : Db :=
  let db1 := db.remove_group_member gid uid
  let channels := db1.get_group_channels gid
  let db2 := channels.foldl (fun d c => d.remove_channel_member c uid) db1
  db2.remove_user_group uid gid

/-- Hex digit value, as accepted by `hex::decode` (both cases). -/
def hexDigit (c : Char) : Option Nat :=
  if '0' ≤ c && c ≤ '9' then some (c.toNat - 48)
  else if 'a' ≤ c && c ≤ 'f' then some (c.toNat - 87)
  else if 'A' ≤ c && c ≤ 'F' then some (c.toNat - 55)
  else none

/-- Model of `hex::decode`: pairs of hex digits; odd length or a non-hex
character is an error. -/
def hexDecode : List Char → Option (List Nat)
  | [] => some []
  | [_] => none
  | a :: b :: rest =>
    match hexDigit a, hexDigit b, hexDecode rest with
    | some x, some y, some r => some ((x * 16 + y) :: r)
    | _, _, _ => none

/-- One day, the default token ttl (`Duration::days(1)`), in milliseconds. -/
def dayMs : Int := 86400000

/-- `Api::login` (main.rs lines 107-131): length check, existence check,
hex-decode both hashes (`unwrap` panics on non-hex), compare bytes, sign
the token `Claims\x7bid, now+1day\x7d` on success. -/
def Api.login (db : Db) (mac : List Char → List Nat) (now : Int) (id : Int)
    (hash : String) : LoginResponse :=
  if hash.length ≠ 64 then .BadRequest
  else if ¬db.valid_id .User id then .NotFound
  else
    let db_hash := db.get_user_hash id
    match hexDecode db_hash.data with
    | none => .Panicked
    | some a =>
      match hexDecode hash.data with
      | none => .Panicked
      | some b =>
        if a ≠ b then .Unauthorized
        else .Success (signToken mac { id := id, exp := now + dayMs })

/-- The 53 disallowed (invisible/formatting) code points of `make_user`'s
name-cleaning pass. -/
def disallowed_chars : List Nat :=
  [0x202e, 0x0009, 0x00AD, 0x034F, 0x061C, 0x115F, 0x1160, 0x17B4, 0x17B5, 0x180E,
   0x2000, 0x2001, 0x2002, 0x2003, 0x2004, 0x2005, 0x2006, 0x2007, 0x2008, 0x2009,
   0x200A, 0x200B, 0x200C, 0x200D, 0x200E, 0x200F, 0x202F, 0x205F, 0x2060, 0x2061,
   0x2062, 0x2063, 0x2064, 0x206A, 0x206B, 0x206C, 0x206D, 0x206E, 0x206F, 0x3000,
   0x2800, 0x3164, 0xFEFF, 0xFFA0, 0x1D159, 0x1D173, 0x1D174, 0x1D175, 0x1D176,
   0x1D177, 0x1D178, 0x1D179, 0x1D17A]

/-- The name-cleaning loop of `make_user`: a fixed 32-element `to_keep`
array indexed by the running character index.  At index ≥ 32 the code
indexes past the array (the inner write when the character is disallowed,
the unconditional read otherwise), a panic — modelled as `none`. -/
def cleanNameLoop : List Char → Nat → List Bool → List Char → Option (List Char)
  | [], _, _, acc => some acc
  | c :: rest, index, to_keep, acc =>
    if index ≥ 32 then none
    else
      let keep1 := if c.toNat ∈ disallowed_chars then to_keep.set index false else to_keep
      let acc1 := if keep1.getD index true then acc ++ [c] else acc
      cleanNameLoop rest (index + 1) keep1 acc1

/-- `Api::make_user` (main.rs lines 151-185): hash-length check, the
name-cleaning pass (whose result `fixed_name` is discarded), then persist
and return the user with the submitted name. -/
def Api.make_user (db : Db) (freshId : Int) (name email hash : String) :
    CreateUserResponse × Db :=
  if hash.length ≠ 64 then (.BadRequest, db)
  else
    match cleanNameLoop name.data 0 (List.replicate 32 true) [] with
    | none => (.Panicked, db)
    | some _fixed_name =>
      let db1 := ((db.create_user freshId name email hash).create_user_groups
        freshId).create_user_dms freshId
      (.Success { id := freshId, username := name, email := email }, db1)

/-- `Api::delete_user` (main.rs lines 200-211): delete the User row, run
the removal cascade for every group in the group-index and then every DM
in the DM-index, then delete the group-index record.  (No call deletes the
DM-index.) -/
def Api.delete_user (db : Db) (auth : Int) : ApiResp × Db :=
  let db1 := db.delete_user auth
  let db2 := (db1.get_user_groups auth).foldl
    (fun d g => Api.__remove_group_member d g auth) db1
  let db3 := (db2.get_user_dms auth).foldl
    (fun d g => Api.__remove_group_member d g auth) db2
  (.Success, db3.delete_user_groups auth)

/-- `Api::leave_group` (main.rs lines 236-245): existence check, then the
removal cascade for the caller — with no check that the caller is not the
group's owner. -/
def Api.leave_group (db : Db) (auth gid : Int) : ApiResp × Db :=
  if ¬db.valid_id .Group gid then (.NotFound, db)
  else (.Success, Api.__remove_group_member db gid auth)

/-- `Api::make_dm` (main.rs lines 289-319): create an `is_dm` group owned
by the caller, add the target as member, index both DM lists, create the
"main" channel and add the target to it. -/
def Api.make_dm (db : Db) (auth : Int) (gid cid : Int) (uid : Int) :
    CreateGroupResponse × Db :=
  if ¬db.valid_id .User uid then (.NotFound, db)
  else
    let db1 := db.create_group gid auth "" true
    let db2 := db1.add_group_member gid uid
    let db3 := db2.add_user_dm auth gid
    let db4 := db3.add_user_dm uid gid
    let db5 := db4.create_channel cid gid auth "main"
    let db6 := db5.add_group_channel gid cid
    let db7 := db6.add_channel_member cid uid
    (.Success { id := gid, name := "", members := [auth, uid], channels := [cid],
                admin := [], owner := auth, is_dm := true }, db7)

/-- `Api::add_group_member` (main.rs lines 375-401): allowed for a group
admin or the owner; adds the member to the group, to every public channel,
and to the relevant per-user index. -/
def Api.add_group_member (db : Db) (auth gid uid : Int) : ApiResp × Db :=
  if ¬db.valid_id .Group gid then (.NotFound, db)
  else if ¬(db.get_group_admin gid).contains auth ∧ db.get_group_owner gid ≠ auth then
    (.Unauthorized, db)
  else
    let db1 := db.add_group_member gid uid
    let channels := db1.get_group_channels gid
    let db2 := channels.foldl
      (fun d c => if d.is_channel_private c then d else d.add_channel_member c uid) db1
    let db3 := if ¬db2.is_group_dm gid then db2.add_user_group uid gid
               else db2.add_user_dm uid gid
    (.Success, db3)

/-- `Api::remove_group_member` (main.rs lines 410-423): requires the caller
to be a group admin and the target to not be the owner; then runs the
removal cascade. -/
def Api.remove_group_member (db : Db) (auth gid uid : Int) : ApiResp × Db :=
  if ¬db.valid_id .Group gid then (.NotFound, db)
  else if ¬db.valid_id .User uid then (.NotFound, db)
  else if ¬(db.get_group_admin gid).contains auth ∨ db.get_group_owner gid = uid then
    (.Unauthorized, db)
  else (.Success, Api.__remove_group_member db gid uid)

/-- `Api::make_channel` (main.rs lines 493-512): name and existence checks,
then the caller must be in `group.admins` (the owner is not consulted);
creates a public channel whose sole member is the caller. -/
def Api.make_channel (db : Db) (auth gid : Int) (cid : Int) (name : String) :
    CreateChannelResponse × Db :=
  if name = "" then (.BadRequest, db)
  else if ¬db.valid_id .Group gid then (.NotFound, db)
  else if ¬(db.get_group_admin gid).contains auth then (.Unauthorized, db)
  else
    let db1 := (db.create_channel cid gid auth name).add_group_channel gid cid
    (.Success { id := cid, group := gid, name := name, members := [auth],
                isPrivate := false }, db1)

/-- `Api::update_channel` (main.rs lines 514-529): existence check, then
the caller must be in the parent group's `admins` (the owner is not
consulted); renames the channel. -/
def Api.update_channel (db : Db) (auth cid : Int) (name : String) : ApiResp × Db :=
  if ¬db.valid_id .Channel cid then (.NotFound, db)
  else
    let channel := db.get_channel cid
    if ¬(db.get_group_admin channel.group).contains auth then (.Unauthorized, db)
    else (.Success, db.update_channel cid name)

/-! ## ID generator (`gen_id`, main.rs lines 81-89)

`gen_id` funnels every call through one mutex-guarded `Snowflake`
(external `rustflake` crate), so concurrent callers are serialized: any
interleaving of N callers requesting M ids each is one sequence of N*M
calls.  The Snowflake algorithm is modelled per the spec ("Snowflake-style:
timestamp bits + sequence bits"): 41 timestamp bits above 5+5 worker/
datacenter bits above 12 sequence bits; `<<`/`|` of the disjoint fields is
written as exact `Int` arithmetic (timestamps stay far below the i64
overflow range).  Each call reads the wall clock; a reading is never below
the last observed timestamp (monotone clock), and the sequence-exhausted
path spins until the next millisecond. -/

structure Snowflake where
  epoch : Int
  worker_id : Int
  datacenter_id : Int
  sequence : Int
  last_timestamp : Int
  deriving DecidableEq, Repr

/-- The id composed from the generator state:
`((timestamp - epoch) << 22) | (worker_id << 17) | (datacenter_id << 12) | sequence`. -/
def Snowflake.idVal (s : Snowflake) : Int :=
  (s.last_timestamp - s.epoch) * 4194304 + s.worker_id * 131072 +
    s.datacenter_id * 4096 + s.sequence

/-- One `generate()` call, taking the wall-clock reading `now`: same
millisecond increments the 12-bit sequence (spinning to the next
millisecond on wrap-around), a new millisecond resets the sequence. -/
def Snowflake.generate (s : Snowflake) (now : Int) : Snowflake × Int :=
  let timestamp := max now s.last_timestamp
  let s' :=
    if timestamp = s.last_timestamp then
      let seq := (s.sequence + 1) % 4096
      if seq = 0 then { s with sequence := 0, last_timestamp := s.last_timestamp + 1 }
      else { s with sequence := seq }
    else { s with sequence := 0, last_timestamp := timestamp }
  (s', s'.idVal)

/-- `Snowflake::default()`: fresh generator, sequence 0. -/
def Snowflake.start : Snowflake :=
  { epoch := 1564790400000, worker_id := 1, datacenter_id := 1,
    sequence := 0, last_timestamp := 0 }

/-- The serialized sequence of `gen_id` results for a sequence of
wall-clock readings (one reading per mutex-guarded call). -/
def gen_ids (s : Snowflake) : List Int → List Int
  | [] => []
  | t :: ts =>
    let p := s.generate t
    p.2 :: gen_ids p.1 ts

/-! ## Partial-completion states of the removal cascade (for idempotence)

`cascade_upto db gid uid n` is the state after the first `n` store
calls of `Api.__remove_group_member db gid uid`: call 1 removes the group
member, calls 2..(k+1) remove the user from the k channels in order, the
last call updates the group-index. -/

def cascade_upto (db : Db) (gid uid : Int) : Nat → Db
  | 0 => db
  | Nat.succ m =>
    let db1 := db.remove_group_member gid uid
    let channels := db1.get_group_channels gid
    let db2 := (channels.take m).foldl (fun d c => d.remove_channel_member c uid) db1
    if channels.length < m then db2.remove_user_group uid gid else db2

/-! ## Concrete fixtures for the evaluated scenarios -/

/-- The empty store. -/
def emptyDb : Db :=
  { users := fun _ => none, groups := fun _ => none, channels := fun _ => none,
    user_groups := fun _ => none, user_dms := fun _ => none }

/-- A valid 64-character hex hash (64 zeros). -/
def zeros64 : String :=
  "0000000000000000000000000000000000000000000000000000000000000000"

/-- A 64-character string that is not valid hex. -/
def zees64 : String :=
  "zzzzzzzzzzzzzzzzzzzzzzzzzzzzzzzzzzzzzzzzzzzzzzzzzzzzzzzzzzzzzzzz"

/-- The 32 zero bytes `zeros64` hex-decodes to. -/
def z32 : List Nat := List.replicate 32 0

/-- A 33-character username (one past the hardcoded 32-slot keep-array). -/
def longName : String := "aaaaaaaaaaaaaaaaaaaaaaaaaaaaaaaaa"

/-- Store with three signed-up users 1, 2, 3. -/
def dbUsers : Db :=
  let d1 := ((emptyDb.create_user 1 "alice" "alice@example.com" zeros64).create_user_groups
    1).create_user_dms 1
  let d2 := ((d1.create_user 2 "bob" "bob@example.com" zeros64).create_user_groups
    2).create_user_dms 2
  ((d2.create_user 3 "carol" "carol@example.com" zeros64).create_user_groups
    3).create_user_dms 3

/-- Store after user 1 creates a DM (group 5, channel 7) with user 2. -/
def dbDm : Db := (Api.make_dm dbUsers 1 5 7 2).2

/-- Store after user 1 creates group 5 ("eng", channel 7) and adds user 2 —
the `make_group` step sequence followed by the add-member endpoint. -/
def dbOwnerLeave : Db :=
  let d1 := dbUsers.create_group 5 1 "eng" false
  let d2 := d1.add_user_group 1 5
  let d3 := d2.add_group_admin 5 1
  let d4 := d3.create_channel 7 5 1 "main"
  let d5 := d4.add_group_channel 5 7
  (Api.add_group_member d5 1 5 2).2

/-! ## Theorems -/

/-! ### Generic list/table lemmas -/

theorem filter_idem (p : Int → Bool) (l : List Int) :
    (l.filter p).filter p = l.filter p := by
  induction l with
  | nil => rfl
  | cons a l ih =>
    by_cases h : p a <;> simp [List.filter_cons, h, ih]

/-- C1: verifying a freshly issued token returns its claims before the ttl
elapses and no claims after expiry, but a token derived from a valid one by
flipping a single bit (bit 4 of the first payload-segment character,
`e` 0x65 to `u` 0x75) drives `api_checker` into the
`String::from_utf8(...).unwrap()` panic instead of returning no claims:
the decoded payload byte 0xBB is not valid UTF-8. -/
theorem token_bitflip_panics :
    api_checker macStub 500 demoToken = .ok { id := 1, exp := 1000 } ∧
    api_checker macStub 2000 demoToken = .noClaims ∧
    (demoToken.get? 21).map Char.toNat = some 0x65 ∧
    (demoFlipped.get? 21).map Char.toNat = some 0x75 ∧
    demoFlipped.length = demoToken.length ∧
    (demoToken.zip demoFlipped).countP (fun p => p.1 != p.2) = 1 ∧
    api_checker macStub 500 demoFlipped = .panicked := by
  decide

/-- C2: parse failures (missing payload segment, invalid base64) and the
other rejection paths yield no claims, but a payload segment that is valid
base64 of non-UTF-8 bytes (`"a.wA==.c"`, payload byte 0xC0) makes
`api_checker` panic on `String::from_utf8(...).unwrap()` instead of
returning no claims. -/
theorem api_checker_parse_failures :
    api_checker macStub 0 "nodots".data = .noClaims ∧
    api_checker macStub 0 "a.!!.c".data = .noClaims ∧
    decodeB64Std "wA==".data = some [0xC0] ∧
    utf8Decode [0xC0] = none ∧
    api_checker macStub 0 "a.wA==.c".data = .panicked := by
  decide

/-- C3: `remove_group_member` targeting the owner is indeed always denied,
but `leave_group` performs no owner check: the owner of group 5 (user 1)
leaves their own group successfully and is removed from the member set
while the group persists — the owner invariant is violated. -/
theorem leave_group_owner_escape :
    (dbOwnerLeave.groups 5).map GroupRec.owner = some 1 ∧
    dbOwnerLeave.get_group_members 5 = [1, 2] ∧
    (Api.remove_group_member dbOwnerLeave 1 5 1).1 = .Unauthorized ∧
    (Api.leave_group dbOwnerLeave 1 5).1 = .Success ∧
    ((Api.leave_group dbOwnerLeave 1 5).2.groups 5).map GroupRec.members = some [2] := by
  decide

/-- C5: `delete_user` deletes the User row, cascades removal from the
groups and DMs, and clears the group-index — but no call clears the
DM-index: after deleting user 1 (member of DM group 5), `user_dms 1` still
holds `[5]`. -/
theorem delete_user_dm_index_not_cleared :
    (Api.delete_user dbDm 1).2.users 1 = none ∧
    (Api.delete_user dbDm 1).2.user_groups 1 = none ∧
    ((Api.delete_user dbDm 1).2.groups 5).map GroupRec.members = some [2] ∧
    (Api.delete_user dbDm 1).2.user_dms 1 = some [5] := by
  decide

/-- C6 counterexample: in the DM store `dbDm` the principal 1 is the owner
of group 5 but not in its (empty) admin list, and `make_channel` denies
them — the claimed "admins OR owner" rule fails on the channel
endpoints. -/
theorem make_channel_owner_denied :
    (dbDm.groups 5).map GroupRec.owner = some 1 ∧
    dbDm.get_group_admin 5 = [] ∧
    (Api.make_channel dbDm 1 5 99 "general").1 = .Unauthorized := by
  decide

/-- C7 counterexample: a 64-character hash that is not valid hex
(`zees64`) does not yield Unauthorized — `hex::decode(...).unwrap()`
panics in the `login` handler. -/
theorem login_nonhex_hash_panics :
    zees64.length = 64 ∧
    Api.login dbUsers macStub 0 1 zees64 = .Panicked ∧
    Api.login dbUsers macStub 0 1 zees64 ≠ .Unauthorized := by
  decide

/-- C8 counterexample: DM group 5 of `dbDm` starts with exactly the two
members 1 and 2, yet its creator/owner (user 1) passes the
`add_group_member` authorization and grows the DM to three members — the
2-member invariant is not preserved by every operation. -/
theorem dm_three_members :
    dbDm.is_group_dm 5 = true ∧
    dbDm.get_group_members 5 = [1, 2] ∧
    (Api.add_group_member dbDm 1 5 3).1 = .Success ∧
    (Api.add_group_member dbDm 1 5 3).2.get_group_members 5 = [1, 2, 3] := by
  decide

/-- C10: `make_user` panics (keep-array index out of bounds) on any
33-character username, while for a short name it succeeds and both the
returned and the persisted user carry the submitted username unchanged
(the cleaned name is discarded). -/
theorem make_user_long_name_panics :
    longName.length = 33 ∧
    (Api.make_user emptyDb 10 longName "b@c" zeros64).1 = .Panicked ∧
    (Api.make_user emptyDb 11 "bob" "b@c" zeros64).1 =
      .Success { id := 11, username := "bob", email := "b@c" } ∧
    ((Api.make_user emptyDb 11 "bob" "b@c" zeros64).2.users 11).map UserRec.username =
      some "bob" := by
  decide

/-! ### Idempotence of the removal cascade (C4): pointwise store lemmas -/

attribute [ext] Db

theorem optmap_idem {α : Type} (f : α → α) (h : ∀ x, f (f x) = f x) (o : Option α) :
    (o.map f).map f = o.map f := by
  cases o <;> simp [h]

theorem fold_rcm_users (cs : List Int) (db : Db) (uid : Int) :
    (cs.foldl (fun d c => d.remove_channel_member c uid) db).users = db.users := by
  induction cs generalizing db with
  | nil => rfl
  | cons c cs ih => simpa using ih (db.remove_channel_member c uid)

theorem fold_rcm_groups (cs : List Int) (db : Db) (uid : Int) :
    (cs.foldl (fun d c => d.remove_channel_member c uid) db).groups = db.groups := by
  induction cs generalizing db with
  | nil => rfl
  | cons c cs ih => simpa using ih (db.remove_channel_member c uid)

theorem fold_rcm_user_groups (cs : List Int) (db : Db) (uid : Int) :
    (cs.foldl (fun d c => d.remove_channel_member c uid) db).user_groups = db.user_groups := by
  induction cs generalizing db with
  | nil => rfl
  | cons c cs ih => simpa using ih (db.remove_channel_member c uid)

theorem fold_rcm_user_dms (cs : List Int) (db : Db) (uid : Int) :
    (cs.foldl (fun d c => d.remove_channel_member c uid) db).user_dms = db.user_dms := by
  induction cs generalizing db with
  | nil => rfl
  | cons c cs ih => simpa using ih (db.remove_channel_member c uid)

theorem fold_rcm_channels (cs : List Int) (db : Db) (uid : Int) (i : Int) :
    (cs.foldl (fun d c => d.remove_channel_member c uid) db).channels i =
      if i ∈ cs then
        (db.channels i).map (fun c => { c with members := c.members.filter (· != uid) })
      else db.channels i := by
  induction cs generalizing db with
  | nil => simp
  | cons c cs ih =>
    rw [List.foldl_cons, ih]
    by_cases hic : i = c
    · subst hic
      by_cases hm : i ∈ cs <;>
        simp [hm, Db.remove_channel_member, tadjust,
          optmap_idem (fun c : ChannelRec => { c with members := c.members.filter (· != uid) })
            (fun c => by simp [filter_idem]) (db.channels i)]
    · by_cases hm : i ∈ cs <;>
        simp [hm, hic, Db.remove_channel_member, tadjust, List.mem_cons]

theorem cascade_upto_users (db : Db) (gid uid : Int) (n : Nat) :
    (cascade_upto db gid uid n).users = db.users := by
  cases n with
  | zero => rfl
  | succ m =>
    simp only [cascade_upto]
    split <;> simp [fold_rcm_users, Db.remove_user_group, Db.remove_group_member]

theorem cascade_upto_user_dms (db : Db) (gid uid : Int) (n : Nat) :
    (cascade_upto db gid uid n).user_dms = db.user_dms := by
  cases n with
  | zero => rfl
  | succ m =>
    simp only [cascade_upto]
    split <;> simp [fold_rcm_user_dms, Db.remove_user_group, Db.remove_group_member]

theorem cascade_upto_groups (db : Db) (gid uid : Int) (m : Nat) :
    (cascade_upto db gid uid (m + 1)).groups = (db.remove_group_member gid uid).groups := by
  simp only [cascade_upto]
  split <;> simp [fold_rcm_groups, Db.remove_user_group]

theorem cascade_upto_channels (db : Db) (gid uid : Int) (m : Nat) (i : Int) :
    (cascade_upto db gid uid (m + 1)).channels i =
      if i ∈ ((db.remove_group_member gid uid).get_group_channels gid).take m then
        (db.channels i).map (fun c => { c with members := c.members.filter (· != uid) })
      else db.channels i := by
  simp only [cascade_upto]
  split <;>
    simp [Db.remove_user_group, fold_rcm_channels, Db.remove_group_member]

theorem cascade_upto_user_groups (db : Db) (gid uid : Int) (m : Nat) :
    (cascade_upto db gid uid (m + 1)).user_groups =
      if ((db.remove_group_member gid uid).get_group_channels gid).length < m then
        tadjust db.user_groups uid (fun l => l.filter (· != gid))
      else db.user_groups := by
  simp only [cascade_upto]
  split <;>
    simp_all [Db.remove_user_group, fold_rcm_user_groups, Db.remove_group_member]

theorem ggc_congr (X Y : Db) (h : X.groups = Y.groups) (g : Int) :
    X.get_group_channels g = Y.get_group_channels g := by
  unfold Db.get_group_channels
  rw [h]

theorem ggc_rgm (X : Db) (gid uid g2 : Int) :
    (X.remove_group_member gid uid).get_group_channels g2 = X.get_group_channels g2 := by
  unfold Db.get_group_channels Db.remove_group_member
  simp only [tadjust]
  by_cases h : g2 = gid
  · subst h
    cases X.groups g2 <;> simp
  · simp [h]

theorem rgmc_users (db : Db) (gid uid : Int) :
    (Api.__remove_group_member db gid uid).users = db.users := by
  unfold Api.__remove_group_member
  simp [Db.remove_user_group, fold_rcm_users, Db.remove_group_member]

theorem rgmc_user_dms (db : Db) (gid uid : Int) :
    (Api.__remove_group_member db gid uid).user_dms = db.user_dms := by
  unfold Api.__remove_group_member
  simp [Db.remove_user_group, fold_rcm_user_dms, Db.remove_group_member]

theorem rgmc_groups (db : Db) (gid uid : Int) :
    (Api.__remove_group_member db gid uid).groups =
      tadjust db.groups gid (fun g => { g with members := g.members.filter (· != uid) }) := by
  unfold Api.__remove_group_member
  simp [Db.remove_user_group, fold_rcm_groups, Db.remove_group_member]

theorem rgmc_user_groups (db : Db) (gid uid : Int) :
    (Api.__remove_group_member db gid uid).user_groups =
      tadjust db.user_groups uid (fun l => l.filter (· != gid)) := by
  unfold Api.__remove_group_member
  simp [Db.remove_user_group, fold_rcm_user_groups, Db.remove_group_member]

theorem rug_channels (db : Db) (uid gid : Int) :
    (db.remove_user_group uid gid).channels = db.channels := rfl

theorem rgm_channels (db : Db) (gid uid : Int) :
    (db.remove_group_member gid uid).channels = db.channels := rfl

theorem rgmc_channels (db : Db) (gid uid : Int) (i : Int) :
    (Api.__remove_group_member db gid uid).channels i =
      if i ∈ (db.remove_group_member gid uid).get_group_channels gid then
        (db.channels i).map (fun c => { c with members := c.members.filter (· != uid) })
      else db.channels i := by
  unfold Api.__remove_group_member
  rw [rug_channels, fold_rcm_channels, rgm_channels]

/-- C4: re-invoking the removal cascade after any partial or full prefix of
a first invocation yields exactly the once-completed state (spec-modelled
store: every step is a set-semantics no-op on absent elements, so the
second invocation also produces no error). -/
theorem remove_group_member_idempotent (db : Db) (gid uid : Int) (n : Nat) :
    Api.__remove_group_member (cascade_upto db gid uid n) gid uid =
      Api.__remove_group_member db gid uid := by
  cases n with
  | zero => rfl
  | succ m =>
    have hPg : (cascade_upto db gid uid (m + 1)).groups =
        (db.remove_group_member gid uid).groups := cascade_upto_groups db gid uid m
    have hcs : ((cascade_upto db gid uid (m + 1)).remove_group_member gid
        uid).get_group_channels gid =
        (db.remove_group_member gid uid).get_group_channels gid := by
      rw [ggc_rgm]
      exact ggc_congr _ _ hPg gid
    refine Db.ext (funext fun i => ?_) (funext fun i => ?_) (funext fun i => ?_)
      (funext fun i => ?_) (funext fun i => ?_)
    · rw [rgmc_users, rgmc_users, cascade_upto_users]
    · -- groups
      rw [rgmc_groups, rgmc_groups, hPg]
      show tadjust (tadjust db.groups gid _) gid _ i = tadjust db.groups gid _ i
      simp only [tadjust]
      by_cases h : i = gid
      · simp only [h, if_pos rfl]
        exact optmap_idem _ (fun g => by simp [filter_idem]) _
      · simp [h]
    · -- channels
      rw [rgmc_channels, rgmc_channels, hcs, cascade_upto_channels]
      set cs := (db.remove_group_member gid uid).get_group_channels gid with hcsdef
      by_cases hmem : i ∈ cs
      · by_cases htake : i ∈ cs.take m
        · simp only [hmem, if_pos, htake]
          exact optmap_idem _ (fun c => by simp [filter_idem]) _
        · simp [hmem, htake]
      · have htake : i ∉ cs.take m := fun h => hmem (List.take_subset m cs h)
        simp [hmem, htake]
    · -- user_groups
      rw [rgmc_user_groups, rgmc_user_groups, cascade_upto_user_groups]
      by_cases h : ((db.remove_group_member gid uid).get_group_channels gid).length < m
      · simp only [h, if_pos]
        show tadjust (tadjust db.user_groups uid _) uid _ i = tadjust db.user_groups uid _ i
        simp only [tadjust]
        by_cases hi : i = uid
        · simp only [hi, if_pos rfl]
          exact optmap_idem _ (fun l => by simp [filter_idem]) _
        · simp [hi]
      · simp [h]
    · rw [rgmc_user_dms, rgmc_user_dms, cascade_upto_user_dms]

theorem generate_fst (s : Snowflake) (now : Int) :
    (s.generate now).1 =
      if max now s.last_timestamp = s.last_timestamp then
        if (s.sequence + 1) % 4096 = 0 then
          { s with sequence := 0, last_timestamp := s.last_timestamp + 1 }
        else { s with sequence := (s.sequence + 1) % 4096 }
      else { s with sequence := 0, last_timestamp := max now s.last_timestamp } := rfl

theorem snow_generate_lt (s : Snowflake) (now : Int)
    (h0 : 0 ≤ s.sequence) (h1 : s.sequence < 4096) :
    s.idVal < (s.generate now).1.idVal ∧
    0 ≤ (s.generate now).1.sequence ∧ (s.generate now).1.sequence < 4096 := by
  rw [generate_fst]
  by_cases ht : max now s.last_timestamp = s.last_timestamp
  · by_cases hs : (s.sequence + 1) % 4096 = 0
    · rw [if_pos ht, if_pos hs]
      simp only [Snowflake.idVal]
      omega
    · rw [if_pos ht, if_neg hs]
      simp only [Snowflake.idVal]
      omega
  · rw [if_neg ht]
    have hM : s.last_timestamp < max now s.last_timestamp :=
      (le_max_right now s.last_timestamp).lt_of_ne (fun h => ht h.symm)
    simp only [Snowflake.idVal]
    omega

theorem gen_ids_chain (ts : List Int) (s : Snowflake)
    (h0 : 0 ≤ s.sequence) (h1 : s.sequence < 4096) :
    List.Chain (· < ·) s.idVal (gen_ids s ts) := by
  induction ts generalizing s with
  | nil => exact List.Chain.nil
  | cons t ts ih =>
    have h := snow_generate_lt s t h0 h1
    exact List.Chain.cons h.1 (ih (s.generate t).1 h.2.1 h.2.2)

theorem gen_ids_length (s : Snowflake) (ts : List Int) :
    (gen_ids s ts).length = ts.length := by
  induction ts generalizing s with
  | nil => rfl
  | cons t ts ih => simpa [gen_ids] using ih (s.generate t).1

/-- C9: the mutex serializes `gen_id`, so any interleaving of concurrent
callers is one sequence of clock readings; for every such sequence the
generated ids are strictly increasing — hence pairwise distinct (N callers
times M ids give N*M distinct values) and numerically non-decreasing over
time. -/
theorem gen_id_unique_monotone (ts : List Int) :
    (gen_ids Snowflake.start ts).Sorted (· < ·) ∧
    (gen_ids Snowflake.start ts).Nodup ∧
    (gen_ids Snowflake.start ts).toFinset.card = ts.length := by
  have hch := gen_ids_chain ts Snowflake.start (by decide) (by decide)
  have hp : (gen_ids Snowflake.start ts).Pairwise (· < ·) :=
    (List.chain_iff_pairwise.mp hch).of_cons
  have hnd : (gen_ids Snowflake.start ts).Nodup := hp.imp ne_of_lt
  exact ⟨hp, hnd, by rw [List.toFinset_card_of_nodup hnd, gen_ids_length]⟩

/-- C6 (amended): the admin-gated channel operations `make_channel` and
`update_channel` are allowed exactly when the principal is in
`group.admins`; the owner gets no implicit admin fallback on these
endpoints (an owner outside the admin list — e.g. every DM owner — is
denied). -/
theorem channel_ops_admin_only (db : Db) (auth gid cid chid : Int) (name : String)
    (hname : name ≠ "") (hg : db.valid_id .Group gid = true)
    (hc : db.valid_id .Channel chid = true) :
    ((Api.make_channel db auth gid cid name).1.isSuccess = true ↔
      auth ∈ db.get_group_admin gid) ∧
    ((Api.update_channel db auth chid name).1 = .Success ↔
      auth ∈ db.get_group_admin (db.get_channel chid).group) := by
  constructor
  · unfold Api.make_channel
    rw [if_neg hname, if_neg (by simp [hg])]
    by_cases h : auth ∈ db.get_group_admin gid
    · rw [if_neg (by simp [h])]
      simp [CreateChannelResponse.isSuccess, h]
    · rw [if_pos (by simp [h])]
      simp [CreateChannelResponse.isSuccess, h]
  · unfold Api.update_channel
    rw [if_neg (by simp [hc])]
    by_cases h : auth ∈ db.get_group_admin (db.get_channel chid).group
    · simp [h]
    · simp [h]

theorem channel_ops_admin_only_witness :
    ((Api.make_channel dbDm 1 5 99 "general").1.isSuccess = true ↔
      1 ∈ dbDm.get_group_admin 5) ∧
    ((Api.update_channel dbDm 1 7 "general").1 = .Success ↔
      1 ∈ dbDm.get_group_admin (dbDm.get_channel 7).group) :=
  channel_ops_admin_only dbDm 1 5 99 7 "general" (by decide) (by decide) (by decide)

/-- C7 (amended): login with a hash whose length is not 64 yields
BadRequest; a nonexistent user yields NotFound; when both the stored and
the submitted hash are valid hex (the handler unwraps `hex::decode` and
panics otherwise), differing decoded bytes yield Unauthorized, and equal
decoded bytes yield Success with a token signed over
`Claims\x7bid, now + 1 day\x7d`. -/
theorem login_spec (db : Db) (mac : List Char → List Nat) (now id : Int)
    (hash : String) (a b : List Nat)
    (h64 : hash.length = 64) (hv : db.valid_id .User id = true)
    (ha : hexDecode (db.get_user_hash id).data = some a)
    (hb : hexDecode hash.data = some b) :
    (∀ h2 : String, h2.length ≠ 64 → Api.login db mac now id h2 = .BadRequest) ∧
    (∀ id2 : Int, db.valid_id .User id2 = false →
      Api.login db mac now id2 hash = .NotFound) ∧
    (a ≠ b → Api.login db mac now id hash = .Unauthorized) ∧
    (a = b → Api.login db mac now id hash =
      .Success (signToken mac { id := id, exp := now + dayMs })) := by
  refine ⟨fun h2 hlen => ?_, fun id2 hid => ?_, fun hne => ?_, fun heq => ?_⟩
  · unfold Api.login
    rw [if_pos hlen]
  · unfold Api.login
    rw [if_neg (by simp [h64]), if_pos (by simp [hid])]
  · unfold Api.login
    rw [if_neg (by simp [h64]), if_neg (by simp [hv])]
    simp only [ha, hb]
    rw [if_pos hne]
  · unfold Api.login
    rw [if_neg (by simp [h64]), if_neg (by simp [hv])]
    simp only [ha, hb]
    rw [if_neg (by simp [heq])]

theorem login_spec_witness :
    Api.login dbUsers macStub 0 1 zeros64 =
      .Success (signToken macStub { id := 1, exp := 0 + dayMs }) :=
  (login_spec dbUsers macStub 0 1 zeros64 z32 z32 (by decide) (by decide) (by decide)
    (by decide)).2.2.2 rfl

/-- C8 (amended): a DM created between two distinct users has exactly 2
members, exactly one channel, and `is_dm = true` at creation (the
invariant is not preserved by every later operation: see the
counterexample where the DM owner adds a third member). -/
theorem make_dm_shape (db : Db) (auth gid cid uid : Int)
    (hu : db.valid_id .User uid = true) (hne : auth ≠ uid) :
    ((Api.make_dm db auth gid cid uid).2.groups gid).map
      (fun g => (g.members.length, g.channels.length, g.is_dm)) = some (2, 1, true) := by
  unfold Api.make_dm
  rw [if_neg (by simp [hu])]
  simp [Db.create_group, Db.add_group_member, Db.add_user_dm, Db.create_channel,
    Db.add_group_channel, Db.add_channel_member, tset, tadjust, insertId, Ne.symm hne]

theorem make_dm_shape_witness :
    ((Api.make_dm dbUsers 1 5 7 2).2.groups 5).map
      (fun g => (g.members.length, g.channels.length, g.is_dm)) = some (2, 1, true) :=
  make_dm_shape dbUsers 1 5 7 2 (by decide) (by decide)
